import Mathlib

/-!
Verification development for the iamf-tools parameter-block generator and the
FLAC encoder finalizer. The definitions below are a shallow embedding of the
C++ sources in `iamf/cli/parameter_block_generator.cc`,
`iamf/cli/parameter_block_generator.h`, `iamf/cli/flac_encoder_decoder.cc` and
`iamf/audio_element.h`. Machine integers are modelled as `Nat`/`Int` (the
embedded code never overflows 32 bits on the inputs considered), `absl::Status`
as an explicit status code, fallible operations as `Except`, and abnormal
termination (out-of-bounds container access, `std::get` on the wrong variant
arm, `.at` on a missing key) as a distinguished error value. `double` values
that hold recon-gain ratios are modelled as `ℚ` with exact arithmetic; the
concrete ratios used in counterexamples (such as 1/2) are exactly representable
IEEE-754 doubles, so the modelled arithmetic agrees with the source bit for
bit on them. Components of the repository that are not part of the provided
sources (the global timing module, the parameter-block OBU subblock helpers,
and small coercion utilities) are modelled from the specification; each such
definition carries a doc comment starting with `Modelled from the spec:`.
-/

namespace IamfTools

/-- Status codes of `absl::Status` that the embedded code produces. -/
inductive StatusCode where
  | ok
  | invalidArgument
  | unknown
  | failedPrecondition
  deriving DecidableEq, Repr

/-- Outcome of running a piece of embedded code: either a structured
`absl::Status` error, or abnormal termination (out-of-bounds access on a
`std::vector`/proto repeated field, `std::get` on an inactive variant arm,
`flat_hash_map::at` on a missing key). -/
inductive RunError where
  | status (code : StatusCode)
  | undefinedBehavior
  deriving DecidableEq, Repr

/-- ChannelNumbers: (surround, height, lfe) triple of a layout
(`iamf/cli/demixing_module.h`, described in the spec glossary). -/
structure ChannelNumbers where
  surround : Nat
  height : Nat
  lfe : Nat
  deriving DecidableEq, Repr

/-- Labels pushed by one iteration of the surround loop of
`FindDemixedChannels` (parameter_block_generator.cc lines 193-223) for the
value `surround` of the loop counter. -/
def surroundCaseLabels (accumulatedSurround : Nat) (surround : Nat) : List String :=
  if surround = 2 then
    if accumulatedSurround = 1 then ["D_R2"] else []
  else if surround = 3 then ["D_L3", "D_R3"]
  else if surround = 5 then ["D_Ls5", "D_Rs5"]
  else if surround = 7 then ["D_L7", "D_R7", "D_Lrs7", "D_Rrs7"]
  else []

/-- Labels pushed by the height block of `FindDemixedChannels`
(parameter_block_generator.cc lines 225-235). -/
def heightCaseLabels (accumulated layerChannels : ChannelNumbers) : List String :=
  if accumulated.height = 2 then
    if layerChannels.height = 4 then ["D_Ltb4", "D_Rtb4"]
    else if layerChannels.height = 2 ∧ accumulated.surround = 3 ∧
        3 < layerChannels.surround then ["D_Ltf2", "D_Rtf2"]
    else []
  else []

/-- FindDemixedChannels (parameter_block_generator.cc lines 189-238): walks
`surround` from `accumulated.surround + 1` to `layerChannels.surround`,
pushing the demixed surround labels and failing with `InvalidArgument` when
the loop encounters a surround count above 7, then appends the height labels. -/
def findDemixedChannels (accumulated layerChannels : ChannelNumbers) :
    Except RunError (List String) :=
  let surroundRange :=
    List.range' (accumulated.surround + 1) (layerChannels.surround - accumulated.surround)
  if surroundRange.any (fun s => decide (7 < s)) then
    Except.error (RunError.status StatusCode.invalidArgument)
  else
    Except.ok ((surroundRange.map (surroundCaseLabels accumulated.surround)).flatten ++
      heightCaseLabels accumulated layerChannels)

/-- Bit position of a demixed channel label, from the if-chain of
`ConvertReconGainsAndFlags` (parameter_block_generator.cc lines 252-279);
an unrecognized label keeps the initial value 0 (the source only logs). -/
def reconGainBitPosition (label : String) : Nat :=
  if label = "D_L7" ∨ label = "D_L5" ∨ label = "D_L3" then 0
  else if label = "D_R7" ∨ label = "D_R5" ∨ label = "D_R3" ∨ label = "D_R2" then 2
  else if label = "D_Ls5" then 3
  else if label = "D_Rs5" then 4
  else if label = "D_Ltf4" ∨ label = "D_Ltf2" then 5
  else if label = "D_Rtf4" ∨ label = "D_Rtf2" then 6
  else if label = "D_Lrs7" then 7
  else if label = "D_Rrs7" then 8
  else if label = "D_Ltb4" then 9
  else if label = "D_Rtb4" then 10
  else 0

/-- The 8-bit store `static_cast<uint8_t>(recon_gain * 255.0)` of
parameter_block_generator.cc line 281-282: the C++ float-to-integer cast
truncates toward zero; recon gains are ratios in [0,1], where truncation
toward zero coincides with the floor. -/
def castReconGain (reconGain : ℚ) : Nat :=
  Int.toNat ⌊reconGain * 255⌋

/-- Output of `ConvertReconGainsAndFlags`: the size-12 gain array (entries are
uint8 values) and the computed `recon_gain_flag` bitmask. -/
structure ConvertedReconGains where
  gains : List Nat
  flag : Nat
  deriving DecidableEq, Repr

/-- One fold step of `ConvertReconGainsAndFlags`: set the flag bit for the
label and store the scaled gain at its bit position. -/
def convertReconGainStep (acc : ConvertedReconGains) (entry : String × ℚ) :
    ConvertedReconGains :=
  let bitPosition := reconGainBitPosition entry.1
  { gains := acc.gains.set bitPosition (castReconGain entry.2),
    flag := acc.flag ||| (1 <<< bitPosition) }

/-- ConvertReconGainsAndFlags (parameter_block_generator.cc lines 240-285):
starts from a zeroed size-12 array and flag 0 and processes every
(label, recon_gain) entry of the map. The C++ `flat_hash_map` iterates in an
unspecified order; the embedding fixes the insertion order of the list, which
is one admissible order. The function always returns `absl::OkStatus()`. -/
def convertReconGainsAndFlags (labelToReconGain : List (String × ℚ)) :
    ConvertedReconGains :=
  labelToReconGain.foldl convertReconGainStep
    { gains := List.replicate 12 0, flag := 0 }

/-- Interface of `ReconGainGenerator::ComputeReconGain` (an external
collaborator declared in `iamf/cli/recon_gain_generator.h`, not part of the
embedded sources): given a demixed channel label it returns the energy-ratio
recon gain, or an error status. The audio element id and start timestamp are
fixed for one subblock, so they are pre-applied in the oracle. -/
def ReconGainOracle : Type := String → Except RunError ℚ

/-- ComputeReconGains (parameter_block_generator.cc lines 287-327): for layer
0 the label map is empty; for higher layers the demixed labels are computed
and each is fed to `ComputeReconGain`. Then the user `recon_gain_is_present`
flag of this layer must equal whether any label was collected, and the map is
converted to the gains array and flag. Reading past the end of the flags
vector is abnormal termination. -/
def computeReconGainsImpl (layerIndex : Nat)
    (layerChannels accumulated : ChannelNumbers) (oracle : ReconGainOracle)
    (reconGainIsPresentFlags : List Bool) :
    Except RunError ConvertedReconGains :=
  let labelsResult : Except RunError (List String) :=
    if 0 < layerIndex then findDemixedChannels accumulated layerChannels
    else Except.ok []
  match labelsResult with
  | Except.error e => Except.error e
  | Except.ok labels =>
    match labels.mapM (fun label =>
        match oracle label with
        | Except.error e => Except.error e
        | Except.ok g => Except.ok (label, g)) with
    | Except.error e => Except.error e
    | Except.ok labelToReconGain =>
      match reconGainIsPresentFlags[layerIndex]? with
      | none => Except.error RunError.undefinedBehavior
      | some present =>
        if present ≠ !labelToReconGain.isEmpty then
          Except.error (RunError.status StatusCode.invalidArgument)
        else
          Except.ok (convertReconGainsAndFlags labelToReconGain)

/-- One recon-gain element of `ReconGainInfoParameterData`
(`iamf/obu/parameter_block.h`): the 12-bit presence mask and the size-12
array of uint8 recon-gain values. `resize` on the element vector
value-initializes, so a fresh element has flag 0 and an all-zero array. -/
structure ReconGainElement where
  reconGainFlag : Nat
  reconGain : List Nat
  deriving DecidableEq, Repr

/-- The first per-layer loop of `GenerateReconGainSubblock`
(parameter_block_generator.cc lines 354-360): reconstruct the user flag and
the size-12 user gain array from the user (bit_position, gain) pairs. The
proto map iterates in an unspecified order; the embedding processes the list
in order (the result is order-independent for distinct positions). A
bit position of 12 or more writes past the end of the size-12 vector, which
is abnormal termination; the uint32 proto value narrows into uint8
modulo 256. -/
def buildUserReconGainsStep (acc : List Nat × Nat) (p : Nat × Nat) :
    Except RunError (List Nat × Nat) :=
  if p.1 < 12 then
    Except.ok (acc.1.set p.1 (p.2 % 256), acc.2 ||| (1 <<< p.1))
  else Except.error RunError.undefinedBehavior

def buildUserReconGains (pairs : List (Nat × Nat)) :
    Except RunError (List Nat × Nat) :=
  pairs.foldlM buildUserReconGainsStep (List.replicate 12 0, 0)

/-- The guard of `GenerateReconGainSubblock` (parameter_block_generator.cc
lines 340-347): the user layer count is validated only when
`num_layers > 1`. -/
def reconGainLayerCountMismatch (numLayers : Nat)
    (userLayers : List (List (Nat × Nat))) : Bool :=
  decide (1 < numLayers) && decide (userLayers.length ≠ numLayers)

/-- Per-layer loop of `GenerateReconGainSubblock` (parameter_block_generator.cc
lines 350-413), recursing over the remaining layer count. Each iteration
builds the user gains, writes the user-supplied flag and gains into the output
element, and unless `override_computed_recon_gains` is set computes the recon
gains for the layer and validates the user values against them. Indexing the
user layer list, the channel-numbers list or the flags list out of range is
abnormal termination. -/
def reconGainLayerLoop (overrideComputedReconGains : Bool)
    (reconGainIsPresentFlags : List Bool)
    (channelNumbersForLayers : List ChannelNumbers)
    (userLayers : List (List (Nat × Nat))) (oracle : ReconGainOracle) :
    Nat → Nat → ChannelNumbers → Except RunError (List ReconGainElement)
  | _, 0, _ => Except.ok []
  | layerIndex, remaining + 1, accumulated =>
    match userLayers[layerIndex]? with
    | none => Except.error RunError.undefinedBehavior
    | some userPairs =>
      match buildUserReconGains userPairs with
      | Except.error e => Except.error e
      | Except.ok (userReconGains, userReconGainFlag) =>
        let element : ReconGainElement :=
          { reconGainFlag := userReconGainFlag, reconGain := userReconGains }
        if overrideComputedReconGains then
          match reconGainLayerLoop overrideComputedReconGains
              reconGainIsPresentFlags channelNumbersForLayers userLayers oracle
              (layerIndex + 1) remaining accumulated with
          | Except.error e => Except.error e
          | Except.ok rest => Except.ok (element :: rest)
        else
          match channelNumbersForLayers[layerIndex]? with
          | none => Except.error RunError.undefinedBehavior
          | some layerChannels =>
            match computeReconGainsImpl layerIndex layerChannels accumulated
                oracle reconGainIsPresentFlags with
            | Except.error e => Except.error e
            | Except.ok computed =>
              match reconGainIsPresentFlags[layerIndex]? with
              | none => Except.error RunError.undefinedBehavior
              | some present =>
                if !present then
                  match reconGainLayerLoop overrideComputedReconGains
                      reconGainIsPresentFlags channelNumbersForLayers userLayers
                      oracle (layerIndex + 1) remaining layerChannels with
                  | Except.error e => Except.error e
                  | Except.ok rest => Except.ok (element :: rest)
                else if computed.flag ≠ userReconGainFlag then
                  Except.error (RunError.status StatusCode.invalidArgument)
                else if (List.range 12).any
                    (fun i => decide (userReconGains.getD i 0 ≠ computed.gains.getD i 0)) then
                  Except.error (RunError.status StatusCode.invalidArgument)
                else
                  match reconGainLayerLoop overrideComputedReconGains
                      reconGainIsPresentFlags channelNumbersForLayers userLayers
                      oracle (layerIndex + 1) remaining layerChannels with
                  | Except.error e => Except.error e
                  | Except.ok rest => Except.ok (element :: rest)

/-- GenerateReconGainSubblock (parameter_block_generator.cc lines 329-416):
validates the user layer count (only when more than one layer), then runs the
per-layer loop starting from an empty accumulated layout. -/
def generateReconGainSubblock (overrideComputedReconGains : Bool)
    (numLayers : Nat) (reconGainIsPresentFlags : List Bool)
    (channelNumbersForLayers : List ChannelNumbers)
    (userLayers : List (List (Nat × Nat))) (oracle : ReconGainOracle) :
    Except RunError (List ReconGainElement) :=
  if reconGainLayerCountMismatch numLayers userLayers then
    Except.error (RunError.status StatusCode.invalidArgument)
  else
    reconGainLayerLoop overrideComputedReconGains reconGainIsPresentFlags
      channelNumbersForLayers userLayers oracle 0 numLayers ⟨0, 0, 0⟩

/-- Oracle returning recon gain 0 for every label; stands in for a concrete
`ReconGainGenerator` in closed evaluations. -/
def oracleZero : ReconGainOracle := fun _ => Except.ok 0

/-- ParamDefinition::ParameterDefinitionType (`iamf/obu/param_definitions.h`):
mix gain = 0, demixing = 1, recon gain = 2, and the reserved tail. -/
inductive ParamDefinitionType where
  | mixGain
  | demixing
  | reconGain
  | reserved (tag : Nat)
  deriving DecidableEq, Repr

/-- ParamDefinition with the subclass data flattened in: the common fields of
the base class, the `GetType` tag, and the `audio_element_id_` of the
`ReconGainParamDefinition` subclass (meaningful only when the type is recon
gain). -/
structure ParamDefinition where
  parameterId : Nat
  parameterRate : Nat
  paramDefinitionMode : Nat
  duration : Nat
  constantSubblockDuration : Nat
  numSubblocks : Nat
  subblockDurations : List Nat
  ptype : Option ParamDefinitionType
  audioElementId : Nat
  deriving DecidableEq, Repr

/-- ChannelAudioLayerConfig (audio_element.h lines 49-81), restricted to the
fields the parameter-block generator reads. -/
structure ChannelAudioLayerConfig where
  loudspeakerLayout : Nat
  outputGainIsPresentFlag : Nat
  reconGainIsPresentFlag : Nat
  substreamCount : Nat
  coupledSubstreamCount : Nat
  deriving DecidableEq, Repr

/-- ScalableChannelLayoutConfig (audio_element.h lines 88-97). -/
structure ScalableChannelLayoutConfig where
  numLayers : Nat
  channelAudioLayerConfigs : List ChannelAudioLayerConfig
  deriving DecidableEq, Repr

/-- The `config_` variant of an AudioElementObu (audio_element.h lines
313-315); the generator only inspects the scalable arm. -/
inductive AudioElementConfig where
  | scalable (config : ScalableChannelLayoutConfig)
  | ambisonics
  | extension
  deriving DecidableEq, Repr

/-- AudioElementWithData (`iamf/cli/audio_element_with_data.h`): the OBU
config plus the derived per-layer channel numbers. -/
structure AudioElementWithData where
  config : AudioElementConfig
  channelNumbersForLayers : List ChannelNumbers
  deriving DecidableEq, Repr

/-- PerIdParameterMetadata (`iamf/cli/parameter_block_with_data.h`): resolved
definition, its type, and the recon-gain-only fields. -/
structure PerIdParameterMetadata where
  paramDefinition : ParamDefinition
  paramDefinitionType : ParamDefinitionType
  audioElementId : Nat
  numLayers : Nat
  reconGainIsPresentFlags : List Bool
  channelNumbersForLayers : List ChannelNumbers
  deriving DecidableEq, Repr

/-- Lookup in an association list, modelling `flat_hash_map::find`. -/
def lookupAssoc {α : Type} (table : List (Nat × α)) (key : Nat) : Option α :=
  (table.find? (fun kv => kv.1 == key)).map (fun kv => kv.2)

/-- Update in an association list, modelling `map[key] = value`. -/
def updateAssoc {α : Type} (table : List (Nat × α)) (key : Nat) (value : α) :
    List (Nat × α) :=
  if (table.find? (fun kv => kv.1 == key)).isSome then
    table.map (fun kv => if kv.1 == key then (key, value) else kv)
  else table ++ [(key, value)]

/-- GetPerIdMetadata (parameter_block_generator.cc lines 78-131): resolve the
parameter id in the definitions table (`InvalidArgument` when absent), require
a type tag (`Unknown` when absent), and for recon-gain definitions resolve the
referenced audio element: a dangling reference returns `absl::UnknownError`
(line 113), and the scalable channel config is read with `std::get` (abnormal
termination on a non-channel-based element). The per-layer flags loop reads
`num_layers` entries of the layer-config vector. -/
def getPerIdMetadata (targetParameterId : Nat)
    (audioElements : List (Nat × AudioElementWithData))
    (paramDefinitions : List (Nat × ParamDefinition)) :
    Except RunError PerIdParameterMetadata :=
  match lookupAssoc paramDefinitions targetParameterId with
  | none => Except.error (RunError.status StatusCode.invalidArgument)
  | some paramDefinition =>
    match paramDefinition.ptype with
    | none => Except.error (RunError.status StatusCode.unknown)
    | some ptype =>
      if ptype = ParamDefinitionType.reconGain then
        match lookupAssoc audioElements paramDefinition.audioElementId with
        | none => Except.error (RunError.status StatusCode.unknown)
        | some audioElement =>
          match audioElement.config with
          | AudioElementConfig.scalable channelConfig =>
            if channelConfig.numLayers ≤ channelConfig.channelAudioLayerConfigs.length then
              Except.ok
                { paramDefinition := paramDefinition
                  paramDefinitionType := ptype
                  audioElementId := paramDefinition.audioElementId
                  numLayers := channelConfig.numLayers
                  reconGainIsPresentFlags :=
                    (channelConfig.channelAudioLayerConfigs.take
                      channelConfig.numLayers).map
                      (fun c => decide (c.reconGainIsPresentFlag = 1))
                  channelNumbersForLayers := audioElement.channelNumbersForLayers }
            else Except.error RunError.undefinedBehavior
          | _ => Except.error RunError.undefinedBehavior
      else
        Except.ok
          { paramDefinition := paramDefinition
            paramDefinitionType := ptype
            audioElementId := 0
            numLayers := 0
            reconGainIsPresentFlags := []
            channelNumbersForLayers := [] }

/-- The supported-type check of `ParameterBlockGenerator::Initialize`
(parameter_block_generator.cc lines 592-600). -/
def supportedParamDefinitionType (t : ParamDefinitionType) : Bool :=
  t == ParamDefinitionType.demixing || t == ParamDefinitionType.mixGain ||
    t == ParamDefinitionType.reconGain

/-- Loop body of `ParameterBlockGenerator::Initialize`
(parameter_block_generator.cc lines 582-601): for each entry of the
definitions table, build the per-id metadata if the id is not yet in the map,
then reject unsupported parameter definition types with `InvalidArgument`. -/
def initializeLoop (audioElements : List (Nat × AudioElementWithData))
    (paramDefinitions : List (Nat × ParamDefinition)) :
    List (Nat × ParamDefinition) → List (Nat × PerIdParameterMetadata) →
    Except RunError (List (Nat × PerIdParameterMetadata))
  | [], acc => Except.ok acc
  | (parameterId, _) :: rest, acc =>
    match lookupAssoc acc parameterId with
    | some existing =>
      if supportedParamDefinitionType existing.paramDefinitionType then
        initializeLoop audioElements paramDefinitions rest acc
      else Except.error (RunError.status StatusCode.invalidArgument)
    | none =>
      match getPerIdMetadata parameterId audioElements paramDefinitions with
      | Except.error e => Except.error e
      | Except.ok metadata =>
        if supportedParamDefinitionType metadata.paramDefinitionType then
          initializeLoop audioElements paramDefinitions rest
            (acc ++ [(parameterId, metadata)])
        else Except.error (RunError.status StatusCode.invalidArgument)

/-- ParameterBlockGenerator::Initialize (parameter_block_generator.cc lines
570-604): requires the IA Sequence Header to be present (`InvalidArgument`
otherwise) and runs the per-definition loop over the table. The hash map
iterates in an unspecified order; the embedding iterates the table list in
order. Returns the filled `parameter_id_to_metadata_` map. -/
def pbgInitialize (iaSequenceHeaderPresent : Bool)
    (audioElements : List (Nat × AudioElementWithData))
    (paramDefinitions : List (Nat × ParamDefinition))
    (initialMetadataMap : List (Nat × PerIdParameterMetadata)) :
    Except RunError (List (Nat × PerIdParameterMetadata)) :=
  if iaSequenceHeaderPresent then
    initializeLoop audioElements paramDefinitions paramDefinitions
      initialMetadataMap
  else Except.error (RunError.status StatusCode.invalidArgument)

/-- Animation type of the user mix-gain metadata
(`iamf_tools_cli_proto::AnimationType`); `invalid` stands for any value
outside the three known animations (the `default` branch of
`GenerateMixGainSubblock`). -/
inductive AnimationTypeMd where
  | step
  | linear
  | bezier
  | invalid
  deriving DecidableEq, Repr

/-- User mix-gain metadata (proto `MixGainParameterData`): all payload fields
are present with proto3 defaults; the animation type selects which are read. -/
structure MixGainMd where
  animationType : AnimationTypeMd
  startPointValue : Int
  endPointValue : Int
  controlPointValue : Int
  controlPointRelativeTime : Nat
  deriving DecidableEq, Repr

/-- User demixing metadata (proto `DemixingInfoParameterData`). -/
structure DemixingMd where
  dmixpMode : Nat
  deriving DecidableEq, Repr

/-- One user parameter subblock (proto `ParameterSubblock`): the duration and
the three typed payload fields (each present with its proto3 default; the
parameter definition type selects which is read). -/
structure ParameterSubblockMd where
  subblockDuration : Nat
  mixGain : MixGainMd
  demixing : DemixingMd
  reconGainLayers : List (List (Nat × Nat))
  deriving DecidableEq, Repr

/-- User parameter-block metadata (proto `ParameterBlockObuMetadata`). -/
structure ParameterBlockObuMetadata where
  parameterId : Nat
  startTimestamp : Int
  duration : Nat
  constantSubblockDuration : Nat
  numSubblocks : Nat
  subblocks : List ParameterSubblockMd
  deriving DecidableEq, Repr

/-- Modelled from the spec: `Int32ToInt16` of `iamf/common/obu_util.h` (not
under src/); section 4.7 step 3 of the spec says 32-bit values are
range-checked into int16, failing with `InvalidArgument` on overflow. -/
def int32ToInt16 (v : Int) : Except RunError Int :=
  if -32768 ≤ v ∧ v ≤ 32767 then Except.ok v
  else Except.error (RunError.status StatusCode.invalidArgument)

/-- Modelled from the spec: `Uint32ToUint8` of `iamf/common/obu_util.h` (not
under src/); section 4.7 step 3 of the spec says 32-bit values are
range-checked into uint8, failing with `InvalidArgument` on overflow. -/
def uint32ToUint8 (v : Nat) : Except RunError Nat :=
  if v ≤ 255 then Except.ok v
  else Except.error (RunError.status StatusCode.invalidArgument)

/-- MixGainParameterData of the OBU (`iamf/obu/parameter_block.h`): the
animation type with its int16/uint8 payload. -/
inductive MixGainParameterData where
  | step (startPointValue : Int)
  | linear (startPointValue endPointValue : Int)
  | bezier (startPointValue endPointValue controlPointValue : Int)
      (controlPointRelativeTime : Nat)
  deriving DecidableEq, Repr

/-- GenerateMixGainSubblock (parameter_block_generator.cc lines 133-187):
transcribe the user animation into the OBU payload, coercing every 32-bit
value; an unknown animation type is `InvalidArgument`. -/
def generateMixGainSubblock (md : MixGainMd) :
    Except RunError MixGainParameterData :=
  match md.animationType with
  | AnimationTypeMd.step =>
    match int32ToInt16 md.startPointValue with
    | Except.error e => Except.error e
    | Except.ok s => Except.ok (MixGainParameterData.step s)
  | AnimationTypeMd.linear =>
    match int32ToInt16 md.startPointValue with
    | Except.error e => Except.error e
    | Except.ok s =>
      match int32ToInt16 md.endPointValue with
      | Except.error e => Except.error e
      | Except.ok e2 => Except.ok (MixGainParameterData.linear s e2)
  | AnimationTypeMd.bezier =>
    match int32ToInt16 md.startPointValue with
    | Except.error e => Except.error e
    | Except.ok s =>
      match int32ToInt16 md.endPointValue with
      | Except.error e => Except.error e
      | Except.ok e2 =>
        match int32ToInt16 md.controlPointValue with
        | Except.error e => Except.error e
        | Except.ok c =>
          match uint32ToUint8 md.controlPointRelativeTime with
          | Except.error e => Except.error e
          | Except.ok t => Except.ok (MixGainParameterData.bezier s e2 c t)
  | AnimationTypeMd.invalid =>
    Except.error (RunError.status StatusCode.invalidArgument)

/-- Modelled from the spec: `CopyDemixingInfoParameterData` of
`iamf/cli/cli_util.h` (not under src/); section 4.7 step 3 of the spec says
the demixing subblock copies `dmixp_mode` (a 3-bit enum with values 0..6 per
section 3), and malformed user metadata fails with `InvalidArgument`. -/
def copyDemixingInfoParameterData (md : DemixingMd) :
    Except RunError Nat :=
  if md.dmixpMode ≤ 6 then Except.ok md.dmixpMode
  else Except.error (RunError.status StatusCode.invalidArgument)

/-- Typed payload of one OBU parameter subblock
(`iamf/obu/parameter_block.h`); `empty` is the default-constructed payload
before the generator fills it. -/
inductive ParamData where
  | empty
  | mixGain (data : MixGainParameterData)
  | demixing (dmixpMode : Nat)
  | reconGain (elements : List ReconGainElement)
  deriving DecidableEq, Repr

/-- One subblock of a ParameterBlockObu. -/
structure ParameterSubblock where
  subblockDuration : Nat
  paramData : ParamData
  deriving DecidableEq, Repr

/-- ParameterBlockObu (`iamf/obu/parameter_block.h`), restricted to the fields
the generator writes: id, timing fields and the subblock vector. -/
structure ParameterBlockObu where
  parameterId : Nat
  duration : Nat
  constantSubblockDuration : Nat
  numSubblocksStored : Nat
  subblocks : List ParameterSubblock
  deriving DecidableEq, Repr

/-- Modelled from the spec: `ParameterBlockObu::GetNumSubblocks`
(`iamf/obu/parameter_block.cc`, not under src/); the section 3 invariant says
that when `constant_subblock_duration` is nonzero the number of subblocks is
`ceil(duration / constant_subblock_duration)`, and otherwise the explicit
`num_subblocks` field. -/
def obuGetNumSubblocks (obu : ParameterBlockObu) : Nat :=
  if obu.constantSubblockDuration = 0 then obu.numSubblocksStored
  else (obu.duration + obu.constantSubblockDuration - 1) / obu.constantSubblockDuration

/-- Modelled from the spec: `ParameterBlockObu::InitializeSubblocks(d, c, n)`
(`iamf/obu/parameter_block.cc`, not under src/); section 4.7 step 1 says the
mode-1 path adopts duration, constant subblock duration and subblock count
from the metadata and sizes the subblock vector. -/
def obuInitializeSubblocks (obu : ParameterBlockObu)
    (duration constantSubblockDuration numSubblocks : Nat) :
    ParameterBlockObu :=
  let obu1 := { obu with
    duration := duration
    constantSubblockDuration := constantSubblockDuration
    numSubblocksStored := numSubblocks }
  { obu1 with
    subblocks := List.replicate (obuGetNumSubblocks obu1) ⟨0, ParamData.empty⟩ }

/-- Modelled from the spec: `ParameterBlockObu::SetSubblockDuration`
(`iamf/obu/parameter_block.cc`, not under src/); stores the duration of one
subblock, failing with `InvalidArgument` for an out-of-range index. -/
def obuSetSubblockDuration (obu : ParameterBlockObu) (index duration : Nat) :
    Except RunError ParameterBlockObu :=
  match obu.subblocks[index]? with
  | none => Except.error (RunError.status StatusCode.invalidArgument)
  | some sb =>
    Except.ok { obu with
      subblocks := obu.subblocks.set index { sb with subblockDuration := duration } }

/-- Modelled from the spec: the GlobalTimingModule state (section 4.5), a
per-parameter-id map to the next expected start timestamp, empty entries
reading as 0. -/
structure GlobalTimingModule where
  nextExpectedStart : List (Nat × Int)
  deriving DecidableEq, Repr

/-- Modelled from the spec:
`GlobalTimingModule::GetNextParameterBlockTimestamps` (section 4.5): fails
with `InvalidArgument` when the claimed start differs from the next expected
start of the id; otherwise returns `[start, start + duration)` and advances
the expected start. -/
def getNextParameterBlockTimestamps (tm : GlobalTimingModule)
    (parameterId : Nat) (claimedStart : Int) (duration : Nat) :
    Except RunError (Int × Int × GlobalTimingModule) :=
  let expected := (lookupAssoc tm.nextExpectedStart parameterId).getD 0
  if claimedStart = expected then
    let endTimestamp := claimedStart + duration
    Except.ok (claimedStart, endTimestamp,
      ⟨updateAssoc tm.nextExpectedStart parameterId endTimestamp⟩)
  else Except.error (RunError.status StatusCode.invalidArgument)

/-- ParameterBlockWithData (`iamf/cli/parameter_block_with_data.h`). -/
structure ParameterBlockWithData where
  obu : ParameterBlockObu
  startTimestamp : Int
  endTimestamp : Int
  deriving DecidableEq, Repr

/-- PopulateCommonFields (parameter_block_generator.cc lines 474-511): the
duration comes from the metadata in mode 1 and from the definition in mode 0;
the timestamps come from the timing module; the OBU is constructed and its
subblock partitioning initialized from the metadata (mode 1) or the
definition (mode 0). Returns the block under construction and the updated
timing state. -/
def populateCommonFields (md : ParameterBlockObuMetadata)
    (perIdMetadata : PerIdParameterMetadata) (tm : GlobalTimingModule) :
    Except RunError (ParameterBlockWithData × GlobalTimingModule) :=
  let duration :=
    if perIdMetadata.paramDefinition.paramDefinitionMode = 1 then md.duration
    else perIdMetadata.paramDefinition.duration
  match getNextParameterBlockTimestamps tm md.parameterId md.startTimestamp
      duration with
  | Except.error e => Except.error e
  | Except.ok (startTimestamp, endTimestamp, tm1) =>
    let obu0 : ParameterBlockObu := ⟨md.parameterId, 0, 0, 0, []⟩
    let obu :=
      if perIdMetadata.paramDefinition.paramDefinitionMode = 1 then
        obuInitializeSubblocks obu0 md.duration md.constantSubblockDuration
          md.numSubblocks
      else
        obuInitializeSubblocks obu0 perIdMetadata.paramDefinition.duration
          perIdMetadata.paramDefinition.constantSubblockDuration
          perIdMetadata.paramDefinition.numSubblocks
    Except.ok (⟨obu, startTimestamp, endTimestamp⟩, tm1)

/-- GenerateParameterBlockSubblock (parameter_block_generator.cc lines
418-472): optionally store the subblock duration, then dispatch on the
parameter definition type. Demixing and recon gain reject a subblock index
greater than 1 with `InvalidArgument`; reserved types are `InvalidArgument`
(the extension TODO of line 467). -/
def generateParameterBlockSubblock (overrideComputedReconGains : Bool)
    (perIdMetadata : PerIdParameterMetadata) (includeSubblockDuration : Bool)
    (subblockIndex : Nat) (mdSubblock : ParameterSubblockMd)
    (oracle : ReconGainOracle) (obu : ParameterBlockObu) :
    Except RunError ParameterBlockObu :=
  let durationResult :=
    if includeSubblockDuration then
      obuSetSubblockDuration obu subblockIndex mdSubblock.subblockDuration
    else Except.ok obu
  match durationResult with
  | Except.error e => Except.error e
  | Except.ok obu1 =>
    match obu1.subblocks[subblockIndex]? with
    | none => Except.error RunError.undefinedBehavior
    | some obuSubblock =>
      let setPayload := fun (pd : ParamData) =>
        { obu1 with
          subblocks := obu1.subblocks.set subblockIndex
            { obuSubblock with paramData := pd } }
      match perIdMetadata.paramDefinitionType with
      | ParamDefinitionType.mixGain =>
        match generateMixGainSubblock mdSubblock.mixGain with
        | Except.error e => Except.error e
        | Except.ok data => Except.ok (setPayload (ParamData.mixGain data))
      | ParamDefinitionType.demixing =>
        if 1 < subblockIndex then
          Except.error (RunError.status StatusCode.invalidArgument)
        else
          match copyDemixingInfoParameterData mdSubblock.demixing with
          | Except.error e => Except.error e
          | Except.ok mode => Except.ok (setPayload (ParamData.demixing mode))
      | ParamDefinitionType.reconGain =>
        if 1 < subblockIndex then
          Except.error (RunError.status StatusCode.invalidArgument)
        else
          match generateReconGainSubblock overrideComputedReconGains
              perIdMetadata.numLayers perIdMetadata.reconGainIsPresentFlags
              perIdMetadata.channelNumbersForLayers mdSubblock.reconGainLayers
              oracle with
          | Except.error e => Except.error e
          | Except.ok elements =>
            Except.ok (setPayload (ParamData.reconGain elements))
      | ParamDefinitionType.reserved _ =>
        Except.error (RunError.status StatusCode.invalidArgument)

/-- Subblock loop of `PopulateSubblocks` (parameter_block_generator.cc lines
534-540). -/
def populateSubblocksLoop (overrideComputedReconGains : Bool)
    (perIdMetadata : PerIdParameterMetadata) (includeSubblockDuration : Bool)
    (oracle : ReconGainOracle) :
    Nat → List ParameterSubblockMd → ParameterBlockObu →
    Except RunError ParameterBlockObu
  | _, [], obu => Except.ok obu
  | i, mdSubblock :: rest, obu =>
    match generateParameterBlockSubblock overrideComputedReconGains
        perIdMetadata includeSubblockDuration i mdSubblock oracle obu with
    | Except.error e => Except.error e
    | Except.ok obu1 =>
      populateSubblocksLoop overrideComputedReconGains perIdMetadata
        includeSubblockDuration oracle (i + 1) rest obu1

/-- PopulateSubblocks (parameter_block_generator.cc lines 513-543): subblock
durations are serialized iff mode is 1 and the constant subblock duration is
0; the metadata must carry exactly the partitioned number of subblocks. -/
def populateSubblocks (md : ParameterBlockObuMetadata)
    (overrideComputedReconGains : Bool) (oracle : ReconGainOracle)
    (perIdMetadata : PerIdParameterMetadata)
    (block : ParameterBlockWithData) :
    Except RunError ParameterBlockWithData :=
  let numSubblocks := obuGetNumSubblocks block.obu
  let includeSubblockDuration :=
    perIdMetadata.paramDefinition.paramDefinitionMode = 1 ∧
      block.obu.constantSubblockDuration = 0
  if numSubblocks ≠ md.subblocks.length then
    Except.error (RunError.status StatusCode.invalidArgument)
  else
    match populateSubblocksLoop overrideComputedReconGains perIdMetadata
        (decide includeSubblockDuration) oracle 0 md.subblocks block.obu with
    | Except.error e => Except.error e
    | Except.ok obu => Except.ok { block with obu := obu }

/-- ParameterBlockGenerator::GenerateParameterBlocks
(parameter_block_generator.cc lines 665-698): drain the metadata list; each
record is resolved in `parameter_id_to_metadata_` (`.at`, abnormal
termination on a missing id), the common fields and subblocks populated, and
the finished block pushed onto the caller-owned output list. An error returns
immediately, leaving the blocks already pushed in the output list and the
queue as is; on success the queue is cleared. The returned triple is the
status, the timing state and the final contents of the caller output list. -/
def generateParameterBlocks
    (parameterIdToMetadata : List (Nat × PerIdParameterMetadata))
    (overrideComputedReconGains : Bool) (oracle : ReconGainOracle) :
    List ParameterBlockObuMetadata → GlobalTimingModule →
    List ParameterBlockWithData →
    Except RunError Unit × GlobalTimingModule × List ParameterBlockWithData
  | [], tm, output => (Except.ok (), tm, output)
  | md :: rest, tm, output =>
    match lookupAssoc parameterIdToMetadata md.parameterId with
    | none => (Except.error RunError.undefinedBehavior, tm, output)
    | some perIdMetadata =>
      match populateCommonFields md perIdMetadata tm with
      | Except.error e => (Except.error e, tm, output)
      | Except.ok (block, tm1) =>
        match populateSubblocks md overrideComputedReconGains oracle
            perIdMetadata block with
        | Except.error e => (Except.error e, tm1, output)
        | Except.ok block1 =>
          generateParameterBlocks parameterIdToMetadata
            overrideComputedReconGains oracle rest tm1 (output ++ [block1])

/-- In-memory state of a `ParameterBlockGenerator`
(parameter_block_generator.h lines 54-171): the override flag, the referenced
per-id metadata map, and the per-type metadata queues (a hash map whose
`operator[]` reads an absent type as the empty queue). -/
structure ParameterBlockGeneratorState where
  overrideComputedReconGains : Bool
  parameterIdToMetadata : List (Nat × PerIdParameterMetadata)
  typedProtoMetadata : ParamDefinitionType → List ParameterBlockObuMetadata

/-- A freshly constructed generator (parameter_block_generator.h lines 63-68):
all metadata queues empty; `Initialize` has not been called. -/
def freshGeneratorState (overrideComputedReconGains : Bool)
    (parameterIdToMetadata : List (Nat × PerIdParameterMetadata)) :
    ParameterBlockGeneratorState :=
  { overrideComputedReconGains := overrideComputedReconGains
    parameterIdToMetadata := parameterIdToMetadata
    typedProtoMetadata := fun _ => [] }

/-- The null `recon_gain_generator_` held before `GenerateReconGain` runs:
dereferencing it would be abnormal termination. -/
def nullOracle : ReconGainOracle := fun _ => Except.error RunError.undefinedBehavior

/-- ParameterBlockGenerator::GenerateDemixing (parameter_block_generator.cc
lines 630-638): drains the demixing queue. -/
def generateDemixingCall (st : ParameterBlockGeneratorState)
    (tm : GlobalTimingModule) (output : List ParameterBlockWithData) :
    Except RunError Unit × GlobalTimingModule × List ParameterBlockWithData :=
  generateParameterBlocks st.parameterIdToMetadata
    st.overrideComputedReconGains nullOracle
    (st.typedProtoMetadata ParamDefinitionType.demixing) tm output

/-- ParameterBlockGenerator::GenerateMixGain (parameter_block_generator.cc
lines 640-648): drains the mix-gain queue. -/
def generateMixGainCall (st : ParameterBlockGeneratorState)
    (tm : GlobalTimingModule) (output : List ParameterBlockWithData) :
    Except RunError Unit × GlobalTimingModule × List ParameterBlockWithData :=
  generateParameterBlocks st.parameterIdToMetadata
    st.overrideComputedReconGains nullOracle
    (st.typedProtoMetadata ParamDefinitionType.mixGain) tm output

/-- ParameterBlockGenerator::GenerateReconGain (parameter_block_generator.cc
lines 652-663): builds a `ReconGainGenerator` over the labeled frames (the
oracle) and drains the recon-gain queue. -/
def generateReconGainCall (st : ParameterBlockGeneratorState)
    (oracle : ReconGainOracle) (tm : GlobalTimingModule)
    (output : List ParameterBlockWithData) :
    Except RunError Unit × GlobalTimingModule × List ParameterBlockWithData :=
  generateParameterBlocks st.parameterIdToMetadata
    st.overrideComputedReconGains oracle
    (st.typedProtoMetadata ParamDefinitionType.reconGain) tm output

/-- One entry of `FlacEncoder::frame_index_to_frame_`
(`iamf/cli/flac_encoder_decoder.h`): the number of samples the write callback
has accumulated for the frame, and the frame payload (abstracted to a
numeric identifier; only identity matters to the finalizer). -/
structure FlacFrame where
  numSamples : Nat
  frameData : Nat
  deriving DecidableEq, Repr

/-- Lookup of a frame index, modelling `frame_index_to_frame_.find`. -/
def lookupFrame (key : Nat) (frames : List (Nat × FlacFrame)) :
    Option FlacFrame :=
  (frames.find? (fun kv => kv.1 == key)).map (fun kv => kv.2)

/-- Erasure of a frame index, modelling `frame_index_to_frame_.erase`. -/
def eraseFrame (key : Nat) (frames : List (Nat × FlacFrame)) :
    List (Nat × FlacFrame) :=
  frames.eraseP (fun kv => kv.1 == key)

/-- FlacEncoder::FinalizeFrames (flac_encoder_decoder.cc lines 155-185) in the
single-threaded model: while the map is nonempty, look up the next expected
frame index (a missing index returns `Unknown`); a found frame whose sample
count differs from `num_samples_per_frame_` makes the loop sleep 50ms and
retry with unchanged state, which in the single-threaded model is divergence,
modelled as `none`. A complete frame is moved (in index order) to
`finalized_audio_frames_`, erased from the map, and the expected index
advances. `some (ok out)` carries the finalized (index, frame) list. -/
def finalizeFrames (numSamplesPerFrame : Nat)
    (frames : List (Nat × FlacFrame)) (nextFrameIndex : Nat) :
    Option (Except StatusCode (List (Nat × FlacFrame))) :=
  if frames = [] then some (Except.ok [])
  else
    if hlk : (lookupFrame nextFrameIndex frames).isSome then
      let f := (lookupFrame nextFrameIndex frames).get hlk
      if f.numSamples = numSamplesPerFrame then
        (finalizeFrames numSamplesPerFrame (eraseFrame nextFrameIndex frames)
            (nextFrameIndex + 1)).map
          (fun r => r.map (fun rest => (nextFrameIndex, f) :: rest))
      else none
    else some (Except.error StatusCode.unknown)
termination_by frames.length
decreasing_by
  rw [Option.isSome_iff_exists] at hlk
  obtain ⟨f, hlk⟩ := hlk
  unfold lookupFrame at hlk
  rw [Option.map_eq_some'] at hlk
  obtain ⟨kv, hfind, _hsnd⟩ := hlk
  have hmem := List.mem_of_find?_eq_some hfind
  have hpred0 := List.find?_some hfind
  have hany : frames.any (fun kv => kv.1 == nextFrameIndex) = true :=
    List.any_eq_true.mpr ⟨kv, hmem, hpred0⟩
  have hpos : 0 < frames.length := List.length_pos_of_mem hmem
  unfold eraseFrame
  rw [List.length_eraseP, if_pos hany]
  omega

/-- Every frame of the map has accumulated exactly the configured number of
samples per frame. -/
def framesAllComplete (numSamplesPerFrame : Nat)
    (frames : List (Nat × FlacFrame)) : Prop :=
  ∀ kv ∈ frames, kv.2.numSamples = numSamplesPerFrame

/-- The frame indices of the map are exactly the contiguous range starting at
`next` (as a permutation of the key list). -/
def framesContiguousFrom (next : Nat) (frames : List (Nat × FlacFrame)) :
    Prop :=
  (frames.map Prod.fst).Perm (List.range' next frames.length)

/-- The spec formula for the stored 8-bit recon gain, written from the words
of spec section 4.6 for comparison with the source: `round(r * 255)` clamped
to [0, 255]. -/
def specRoundClamp (r : ℚ) : Nat :=
  min 255 (Int.toNat (round (r * 255)))

/-- Per-id metadata of a mode-1 demixing parameter track with id 1, used in
closed evaluations. -/
def demixPerIdMetadata : PerIdParameterMetadata :=
  { paramDefinition :=
      { parameterId := 1, parameterRate := 48000, paramDefinitionMode := 1,
        duration := 0, constantSubblockDuration := 0, numSubblocks := 0,
        subblockDurations := [], ptype := some ParamDefinitionType.demixing,
        audioElementId := 0 }
    paramDefinitionType := ParamDefinitionType.demixing
    audioElementId := 0
    numLayers := 0
    reconGainIsPresentFlags := []
    channelNumbersForLayers := [] }

/-- A user demixing subblock with `dmixp_mode` 0. -/
def demixSubblockMd : ParameterSubblockMd :=
  { subblockDuration := 100
    mixGain := ⟨AnimationTypeMd.step, 0, 0, 0, 0⟩
    demixing := ⟨0⟩
    reconGainLayers := [] }

/-- Demixing parameter-block metadata declaring `num_subblocks = 2` via
duration 200 and constant subblock duration 100, with two subblocks. -/
def demixTwoSubblockMd : ParameterBlockObuMetadata :=
  { parameterId := 1, startTimestamp := 0, duration := 200,
    constantSubblockDuration := 100, numSubblocks := 2,
    subblocks := [demixSubblockMd, demixSubblockMd] }

/-- Demixing parameter-block metadata with three subblocks (duration 300,
constant subblock duration 100). -/
def demixThreeSubblockMd : ParameterBlockObuMetadata :=
  { parameterId := 1, startTimestamp := 0, duration := 300,
    constantSubblockDuration := 100, numSubblocks := 3,
    subblocks := [demixSubblockMd, demixSubblockMd, demixSubblockMd] }

/-- A single-subblock demixing record claiming start 0 (duration 100). -/
def demixFirstRecordMd : ParameterBlockObuMetadata :=
  { parameterId := 1, startTimestamp := 0, duration := 100,
    constantSubblockDuration := 100, numSubblocks := 1,
    subblocks := [demixSubblockMd] }

/-- A single-subblock demixing record claiming start 999, which mismatches
the expected start 100 after `demixFirstRecordMd`. -/
def demixGapRecordMd : ParameterBlockObuMetadata :=
  { parameterId := 1, startTimestamp := 999, duration := 100,
    constantSubblockDuration := 100, numSubblocks := 1,
    subblocks := [demixSubblockMd] }

/-- A recon-gain parameter definition with id 7 referencing audio element 99. -/
def danglingReconGainDefinition : ParamDefinition :=
  { parameterId := 7, parameterRate := 48000, paramDefinitionMode := 0,
    duration := 960, constantSubblockDuration := 960, numSubblocks := 1,
    subblockDurations := [], ptype := some ParamDefinitionType.reconGain,
    audioElementId := 99 }

/-- A parameter definition of a reserved (unsupported) type with id 3. -/
def reservedParamDefinition : ParamDefinition :=
  { parameterId := 3, parameterRate := 48000, paramDefinitionMode := 0,
    duration := 960, constantSubblockDuration := 960, numSubblocks := 1,
    subblockDurations := [], ptype := some (ParamDefinitionType.reserved 4),
    audioElementId := 0 }

theorem reconGainBitPosition_range (label : String) :
    reconGainBitPosition label < 12 ∧ reconGainBitPosition label ≠ 1 ∧
      reconGainBitPosition label ≠ 11 := by
  unfold reconGainBitPosition
  repeat' split
  all_goals decide

theorem convertFold_testBit_false (labelToReconGain : List (String × ℚ))
    (acc : ConvertedReconGains) (i : Nat) (hi : i = 1 ∨ i = 11)
    (hacc : acc.flag.testBit i = false) :
    (labelToReconGain.foldl convertReconGainStep acc).flag.testBit i = false := by
  induction labelToReconGain generalizing acc with
  | nil => simpa using hacc
  | cons hd tl ih =>
    simp only [List.foldl_cons]
    apply ih
    have hr := reconGainBitPosition_range hd.1
    have hne : reconGainBitPosition hd.1 ≠ i := by
      rcases hi with h | h <;> rw [h]
      · exact hr.2.1
      · exact hr.2.2
    simp [convertReconGainStep, Nat.testBit_or, hacc, Nat.one_shiftLeft,
      Nat.testBit_two_pow_of_ne hne]

/-- C8: for every demixed channel label, `ConvertReconGainsAndFlags` uses
exactly the Figure-5 bit position claimed by the spec, and bit positions 1
(D_C) and 11 (D_LFE) are never set in a computed `recon_gain_flag`. -/
theorem c8_figure5_bit_positions :
    (reconGainBitPosition "D_L3" = 0 ∧ reconGainBitPosition "D_L5" = 0 ∧
      reconGainBitPosition "D_L7" = 0) ∧
    (reconGainBitPosition "D_R2" = 2 ∧ reconGainBitPosition "D_R3" = 2 ∧
      reconGainBitPosition "D_R5" = 2 ∧ reconGainBitPosition "D_R7" = 2) ∧
    reconGainBitPosition "D_Ls5" = 3 ∧
    reconGainBitPosition "D_Rs5" = 4 ∧
    (reconGainBitPosition "D_Ltf2" = 5 ∧ reconGainBitPosition "D_Ltf4" = 5) ∧
    (reconGainBitPosition "D_Rtf2" = 6 ∧ reconGainBitPosition "D_Rtf4" = 6) ∧
    reconGainBitPosition "D_Lrs7" = 7 ∧
    reconGainBitPosition "D_Rrs7" = 8 ∧
    reconGainBitPosition "D_Ltb4" = 9 ∧
    reconGainBitPosition "D_Rtb4" = 10 ∧
    ∀ labelToReconGain : List (String × ℚ),
      (convertReconGainsAndFlags labelToReconGain).flag.testBit 1 = false ∧
        (convertReconGainsAndFlags labelToReconGain).flag.testBit 11 = false := by
  refine ⟨by decide, by decide, by decide, by decide, by decide, by decide,
    by decide, by decide, by decide, by decide, fun labelToReconGain => ⟨?_, ?_⟩⟩
  · exact convertFold_testBit_false labelToReconGain _ 1 (Or.inl rfl) (by simp)
  · exact convertFold_testBit_false labelToReconGain _ 11 (Or.inr rfl) (by simp)

/-- C6 counterexample: for the layer transition in which the accumulated
layers have height 0 (surround 3) and the current layer has height 2 with
surround 5 (surround grows past 3), the source emits only D_Ls5 and D_Rs5;
D_Ltf2 and D_Rtf2 are not emitted, contrary to the claim. -/
theorem c6_counterexample :
    findDemixedChannels ⟨3, 0, 0⟩ ⟨5, 2, 0⟩ = Except.ok ["D_Ls5", "D_Rs5"] ∧
      "D_Ltf2" ∉ ["D_Ls5", "D_Rs5"] ∧ "D_Rtf2" ∉ ["D_Ls5", "D_Rs5"] :=
  ⟨rfl, by decide, by decide⟩

theorem surroundCaseLabels_no_tf2 (accumulatedSurround surround : Nat) :
    "D_Ltf2" ∉ surroundCaseLabels accumulatedSurround surround ∧
      "D_Rtf2" ∉ surroundCaseLabels accumulatedSurround surround := by
  unfold surroundCaseLabels
  repeat' split
  all_goals exact ⟨by decide, by decide⟩

/-- C6 amended: D_Ltf2 and D_Rtf2 are emitted for a layer transition in which
the accumulated lower layers have height 2 and surround 3 and the current
layer keeps height 2 while its surround grows past 3 (up to the supported 7);
and a layer transition whose accumulated lower layers have height 0 never
emits D_Ltf2 or D_Rtf2. -/
theorem c6_tf2_on_height2_layers :
    (∀ accLfe layLfe layS : Nat, 3 < layS → layS ≤ 7 →
      ∃ labels, findDemixedChannels ⟨3, 2, accLfe⟩ ⟨layS, 2, layLfe⟩ =
        Except.ok labels ∧ "D_Ltf2" ∈ labels ∧ "D_Rtf2" ∈ labels) ∧
    (∀ (accumulated layerChannels : ChannelNumbers) (labels : List String),
      accumulated.height = 0 →
      findDemixedChannels accumulated layerChannels = Except.ok labels →
      "D_Ltf2" ∉ labels ∧ "D_Rtf2" ∉ labels) := by
  constructor
  · intro accLfe layLfe layS hls hls7
    interval_cases layS
    · exact ⟨["D_Ltf2", "D_Rtf2"], rfl, by decide, by decide⟩
    · exact ⟨["D_Ls5", "D_Rs5", "D_Ltf2", "D_Rtf2"], rfl, by decide, by decide⟩
    · exact ⟨["D_Ls5", "D_Rs5", "D_Ltf2", "D_Rtf2"], rfl, by decide, by decide⟩
    · exact ⟨["D_Ls5", "D_Rs5", "D_L7", "D_R7", "D_Lrs7", "D_Rrs7",
        "D_Ltf2", "D_Rtf2"], rfl, by decide, by decide⟩
  · intro accumulated layerChannels labels hah hok
    have hheight : heightCaseLabels accumulated layerChannels = [] := by
      unfold heightCaseLabels
      rw [if_neg (by omega)]
    simp only [findDemixedChannels] at hok
    split at hok
    · exact absurd hok (fun h => Except.noConfusion h)
    · have hlab := Except.ok.inj hok
      rw [hheight, List.append_nil] at hlab
      subst hlab
      constructor
      · intro hmem
        obtain ⟨l, hl, hml⟩ := List.mem_flatten.mp hmem
        obtain ⟨s, _hs, rfl⟩ := List.mem_map.mp hl
        exact absurd hml (surroundCaseLabels_no_tf2 accumulated.surround s).1
      · intro hmem
        obtain ⟨l, hl, hml⟩ := List.mem_flatten.mp hmem
        obtain ⟨s, _hs, rfl⟩ := List.mem_map.mp hl
        exact absurd hml (surroundCaseLabels_no_tf2 accumulated.surround s).2

/-- C6 witness: the amended statement evaluated at the 3.1.2 to 5.1.2
transition and at the height-0 transition of the counterexample. -/
theorem c6_witness :
    (∃ labels, findDemixedChannels ⟨3, 2, 0⟩ ⟨5, 2, 0⟩ = Except.ok labels ∧
      "D_Ltf2" ∈ labels ∧ "D_Rtf2" ∈ labels) ∧
    ("D_Ltf2" ∉ ["D_Ls5", "D_Rs5"] ∧ "D_Rtf2" ∉ ["D_Ls5", "D_Rs5"]) :=
  ⟨c6_tf2_on_height2_layers.1 0 0 5 (by decide) (by decide),
    c6_tf2_on_height2_layers.2 ⟨3, 0, 0⟩ ⟨5, 2, 0⟩ ["D_Ls5", "D_Rs5"] rfl rfl⟩

/-- C4 counterexample: for the computed recon-gain ratio 1/2 the source
stores `static_cast<uint8_t>(0.5 * 255.0) = 127` (truncation), while the
spec formula `round(r * 255)` clamped to [0,255] gives 128. -/
theorem c4_counterexample :
    (convertReconGainsAndFlags [("D_Ls5", (1 : ℚ)/2)]).gains.getD 3 0 = 127 ∧
      specRoundClamp ((1 : ℚ)/2) = 128 ∧ (127 : Nat) ≠ 128 := by
  have hcast : castReconGain ((1 : ℚ)/2) = 127 := by
    rw [castReconGain]
    norm_num
    decide
  refine ⟨?_, ?_, by decide⟩
  · show ((List.replicate 12 0).set (reconGainBitPosition "D_Ls5")
        (castReconGain ((1 : ℚ)/2))).getD 3 0 = 127
    rw [hcast]
    decide
  · rw [specRoundClamp, round_eq]
    norm_num
    decide

/-- C4 amended: for every recon-gain ratio r in [0,1] produced for a demixed
channel label, the stored 8-bit value is the truncation `floor(r * 255)`
(truncation toward zero, which on [0,1] needs no clamping), not the rounded
value. -/
theorem c4_stored_recon_gain_truncates (label : String) (r : ℚ)
    (_h0 : 0 ≤ r) (_h1 : r ≤ 1) :
    (convertReconGainsAndFlags [(label, r)]).gains.getD
        (reconGainBitPosition label) 0 = Int.toNat ⌊r * 255⌋ := by
  have hlen : reconGainBitPosition label < (List.replicate 12 (0 : Nat)).length := by
    simpa using (reconGainBitPosition_range label).1
  show ((List.replicate 12 0).set (reconGainBitPosition label)
      (castReconGain r)).getD (reconGainBitPosition label) 0 = Int.toNat ⌊r * 255⌋
  rw [List.getD_eq_getElem?_getD, List.getElem?_set_self hlen]
  rfl

/-- C4 witness: the amended statement evaluated at label D_Ls5 and ratio 1/2
(stored value 127). -/
theorem c4_witness :
    (convertReconGainsAndFlags [("D_Ls5", (1 : ℚ)/2)]).gains.getD
        (reconGainBitPosition "D_Ls5") 0 = Int.toNat ⌊(1 : ℚ)/2 * 255⌋ :=
  c4_stored_recon_gain_truncates "D_Ls5" ((1 : ℚ)/2) (by norm_num) (by norm_num)

/-- C9: with `num_layers = 1` and an empty user `recon_gains_for_layer` list
the layer-count guard of `GenerateReconGainSubblock` does not fire and the
function indexes the user layer list at position 0 out of bounds (abnormal
termination), and the layer-count-mismatch error branch is unreachable
whenever `num_layers` is at most 1. -/
theorem c9_single_layer_guard_unreachable :
    (∀ (overrideComputedReconGains : Bool)
        (reconGainIsPresentFlags : List Bool)
        (channelNumbersForLayers : List ChannelNumbers)
        (oracle : ReconGainOracle),
      generateReconGainSubblock overrideComputedReconGains 1
          reconGainIsPresentFlags channelNumbersForLayers [] oracle =
        Except.error RunError.undefinedBehavior) ∧
    (∀ (numLayers : Nat) (userLayers : List (List (Nat × Nat))),
      numLayers ≤ 1 → reconGainLayerCountMismatch numLayers userLayers = false) := by
  constructor
  · intro overrideComputedReconGains reconGainIsPresentFlags
      channelNumbersForLayers oracle
    rfl
  · intro numLayers userLayers h
    have hnot : ¬ 1 < numLayers := by omega
    simp [reconGainLayerCountMismatch, hnot]

/-- C9 witness: the guard statement evaluated at a concrete single-layer
call and at a concrete layer count. -/
theorem c9_witness :
    generateReconGainSubblock false 1 [true] [⟨1, 0, 0⟩] [] oracleZero =
        Except.error RunError.undefinedBehavior ∧
      reconGainLayerCountMismatch 1 [] = false :=
  ⟨c9_single_layer_guard_unreachable.1 false [true] [⟨1, 0, 0⟩] oracleZero,
    c9_single_layer_guard_unreachable.2 1 [] (by decide)⟩

/-- C3 counterexample: `GenerateDemixing` called on a freshly constructed
generator, before `Initialize`, returns `absl::OkStatus()` and not
`FailedPrecondition`. -/
theorem c3_counterexample :
    (generateDemixingCall (freshGeneratorState false []) ⟨[]⟩ []).1 =
        Except.ok () ∧
      (generateDemixingCall (freshGeneratorState false []) ⟨[]⟩ []).1 ≠
        Except.error (RunError.status StatusCode.failedPrecondition) :=
  ⟨rfl, fun h => Except.noConfusion h⟩

/-- C3 amended: each `Generate*` call made before `Initialize` (all typed
metadata queues still empty) is a no-op: it returns Ok and leaves the timing
state and the caller output list unchanged, exactly as documented in
parameter_block_generator.h lines 70-74; no call returns
`FailedPrecondition`. -/
theorem c3_generate_before_initialize_is_noop
    (overrideComputedReconGains : Bool)
    (parameterIdToMetadata : List (Nat × PerIdParameterMetadata))
    (oracle : ReconGainOracle) (tm : GlobalTimingModule)
    (output : List ParameterBlockWithData) :
    generateDemixingCall
        (freshGeneratorState overrideComputedReconGains parameterIdToMetadata)
        tm output = (Except.ok (), tm, output) ∧
    generateMixGainCall
        (freshGeneratorState overrideComputedReconGains parameterIdToMetadata)
        tm output = (Except.ok (), tm, output) ∧
    generateReconGainCall
        (freshGeneratorState overrideComputedReconGains parameterIdToMetadata)
        oracle tm output = (Except.ok (), tm, output) :=
  ⟨rfl, rfl, rfl⟩

/-- C2 counterexample: `Initialize` on a table holding one recon-gain
definition whose `audio_element_id` is absent from the audio-element table
returns `Unknown` (parameter_block_generator.cc line 113), not
`InvalidArgument` as claimed. -/
theorem c2_counterexample :
    pbgInitialize true [] [(7, danglingReconGainDefinition)] [] =
        Except.error (RunError.status StatusCode.unknown) ∧
      Except.error (RunError.status StatusCode.unknown) ≠
        (Except.error (RunError.status StatusCode.invalidArgument) :
          Except RunError (List (Nat × PerIdParameterMetadata))) :=
  ⟨rfl, fun h => by simp at h⟩

/-- C2 amended: a parameter_id absent from the definitions table makes
`GetPerIdMetadata` fail with `InvalidArgument`; a recon-gain definition with
a dangling audio-element reference makes `Initialize` fail with `Unknown`
(not `InvalidArgument`); a definition whose type is none of mix-gain,
demixing or recon-gain makes `Initialize` fail with `InvalidArgument`. -/
theorem c2_initialize_error_codes :
    (∀ (parameterId : Nat) (audioElements : List (Nat × AudioElementWithData))
        (paramDefinitions : List (Nat × ParamDefinition)),
      lookupAssoc paramDefinitions parameterId = none →
      getPerIdMetadata parameterId audioElements paramDefinitions =
        Except.error (RunError.status StatusCode.invalidArgument)) ∧
    (∀ (parameterId : Nat) (pd : ParamDefinition)
        (audioElements : List (Nat × AudioElementWithData)),
      pd.ptype = some ParamDefinitionType.reconGain →
      lookupAssoc audioElements pd.audioElementId = none →
      pbgInitialize true audioElements [(parameterId, pd)] [] =
        Except.error (RunError.status StatusCode.unknown)) ∧
    (∀ (parameterId : Nat) (pd : ParamDefinition) (tag : Nat)
        (audioElements : List (Nat × AudioElementWithData)),
      pd.ptype = some (ParamDefinitionType.reserved tag) →
      pbgInitialize true audioElements [(parameterId, pd)] [] =
        Except.error (RunError.status StatusCode.invalidArgument)) := by
  refine ⟨?_, ?_, ?_⟩
  · intro parameterId audioElements paramDefinitions hnone
    unfold getPerIdMetadata
    rw [hnone]
  · intro parameterId pd audioElements hpt hnone
    have hlook : lookupAssoc [(parameterId, pd)] parameterId = some pd := by
      simp [lookupAssoc]
    have h1 : getPerIdMetadata parameterId audioElements [(parameterId, pd)] =
        Except.error (RunError.status StatusCode.unknown) := by
      simp [getPerIdMetadata, hlook, hpt, hnone]
    simp [pbgInitialize, initializeLoop, lookupAssoc, h1]
  · intro parameterId pd tag audioElements hpt
    have hlook : lookupAssoc [(parameterId, pd)] parameterId = some pd := by
      simp [lookupAssoc]
    have h1 : getPerIdMetadata parameterId audioElements [(parameterId, pd)] =
        Except.ok
          { paramDefinition := pd
            paramDefinitionType := ParamDefinitionType.reserved tag
            audioElementId := 0
            numLayers := 0
            reconGainIsPresentFlags := []
            channelNumbersForLayers := [] } := by
      simp [getPerIdMetadata, hlook, hpt]
    simp [pbgInitialize, initializeLoop, lookupAssoc, h1,
      supportedParamDefinitionType]

/-- C2 witness: the amended statement evaluated at a missing id 5, the
dangling recon-gain definition with id 7, and a reserved-type definition
with id 3. -/
theorem c2_witness :
    getPerIdMetadata 5 [] [] =
        Except.error (RunError.status StatusCode.invalidArgument) ∧
      pbgInitialize true [] [(7, danglingReconGainDefinition)] [] =
        Except.error (RunError.status StatusCode.unknown) ∧
      pbgInitialize true [] [(3, reservedParamDefinition)] [] =
        Except.error (RunError.status StatusCode.invalidArgument) :=
  ⟨c2_initialize_error_codes.1 5 [] [] rfl,
    c2_initialize_error_codes.2.1 7 danglingReconGainDefinition [] rfl rfl,
    c2_initialize_error_codes.2.2 3 reservedParamDefinition 4 [] rfl⟩

/-- C1: a demixing parameter block whose metadata declares two subblocks is
accepted by the generator (the guard of parameter_block_generator.cc line 440
is `subblock_index > 1`, so indices 0 and 1 both pass), producing a
two-subblock demixing parameter block, while its own error message says only
one subblock is allowed; with three subblocks the guard does fire with
`InvalidArgument`. -/
theorem c1_demixing_two_subblocks_accepted :
    ((generateParameterBlocks [(1, demixPerIdMetadata)] false nullOracle
          [demixTwoSubblockMd] ⟨[]⟩ []).1 = Except.ok () ∧
      (generateParameterBlocks [(1, demixPerIdMetadata)] false nullOracle
          [demixTwoSubblockMd] ⟨[]⟩ []).2.2.map
        (fun b => b.obu.subblocks.length) = [2]) ∧
    (generateParameterBlocks [(1, demixPerIdMetadata)] false nullOracle
        [demixThreeSubblockMd] ⟨[]⟩ []).1 =
      Except.error (RunError.status StatusCode.invalidArgument) :=
  ⟨⟨rfl, rfl⟩, rfl⟩

/-- C5 counterexample: a `Generate*` call over two queued records where the
second fails (timing gap) returns an error, yet the parameter block built
from the first record remains in the caller output list, contrary to the
claim that nothing from the failed call is appended. -/
theorem c5_counterexample :
    (generateParameterBlocks [(1, demixPerIdMetadata)] false nullOracle
        [demixFirstRecordMd, demixGapRecordMd] ⟨[]⟩ []).1 =
      Except.error (RunError.status StatusCode.invalidArgument) ∧
    (generateParameterBlocks [(1, demixPerIdMetadata)] false nullOracle
        [demixFirstRecordMd, demixGapRecordMd] ⟨[]⟩ []).2.2.length = 1 :=
  ⟨rfl, rfl⟩

/-- C5 amended: when `GenerateParameterBlocks` returns an error, the caller
output list holds exactly the blocks of the successfully processed prefix of
the drained queue: the records before the failing one keep their blocks
appended, and the failing record onward contributes nothing. -/
theorem c5_error_keeps_prefix_blocks
    (parameterIdToMetadata : List (Nat × PerIdParameterMetadata))
    (overrideComputedReconGains : Bool) (oracle : ReconGainOracle)
    (records : List ParameterBlockObuMetadata) (tm : GlobalTimingModule)
    (output : List ParameterBlockWithData) (e : RunError)
    (herr : (generateParameterBlocks parameterIdToMetadata
        overrideComputedReconGains oracle records tm output).1 =
      Except.error e) :
    ∃ pre post tm1,
      records = pre ++ post ∧ post ≠ [] ∧
      generateParameterBlocks parameterIdToMetadata
          overrideComputedReconGains oracle pre tm output =
        (Except.ok (), tm1,
          (generateParameterBlocks parameterIdToMetadata
            overrideComputedReconGains oracle records tm output).2.2) := by
  induction records generalizing tm output with
  | nil => simp [generateParameterBlocks] at herr
  | cons md rest ih =>
    cases hlk : lookupAssoc parameterIdToMetadata md.parameterId with
    | none =>
      refine ⟨[], md :: rest, tm, rfl, by simp, ?_⟩
      simp [generateParameterBlocks, hlk]
    | some perIdMetadata =>
      cases hcf : populateCommonFields md perIdMetadata tm with
      | error e1 =>
        refine ⟨[], md :: rest, tm, rfl, by simp, ?_⟩
        simp [generateParameterBlocks, hlk, hcf]
      | ok pair =>
        obtain ⟨block, tm1⟩ := pair
        cases hps : populateSubblocks md overrideComputedReconGains oracle
            perIdMetadata block with
        | error e2 =>
          refine ⟨[], md :: rest, tm, rfl, by simp, ?_⟩
          simp [generateParameterBlocks, hlk, hcf, hps]
        | ok block1 =>
          have hfull : generateParameterBlocks parameterIdToMetadata
              overrideComputedReconGains oracle (md :: rest) tm output =
              generateParameterBlocks parameterIdToMetadata
                overrideComputedReconGains oracle rest tm1
                (output ++ [block1]) := by
            simp [generateParameterBlocks, hlk, hcf, hps]
          rw [hfull] at herr
          obtain ⟨pre, post, tm2, hsplit, hpost, hpre⟩ :=
            ih tm1 (output ++ [block1]) herr
          refine ⟨md :: pre, post, tm2, by rw [hsplit]; rfl, hpost, ?_⟩
          have hstep : generateParameterBlocks parameterIdToMetadata
              overrideComputedReconGains oracle (md :: pre) tm output =
              generateParameterBlocks parameterIdToMetadata
                overrideComputedReconGains oracle pre tm1
                (output ++ [block1]) := by
            simp [generateParameterBlocks, hlk, hcf, hps]
          rw [hfull, hstep, hpre]

/-- C5 witness: the amended statement evaluated at the two-record queue of
the counterexample. -/
theorem c5_witness :
    ∃ pre post tm1,
      [demixFirstRecordMd, demixGapRecordMd] = pre ++ post ∧ post ≠ [] ∧
      generateParameterBlocks [(1, demixPerIdMetadata)] false nullOracle pre
          ⟨[]⟩ [] =
        (Except.ok (), tm1,
          (generateParameterBlocks [(1, demixPerIdMetadata)] false nullOracle
            [demixFirstRecordMd, demixGapRecordMd] ⟨[]⟩ []).2.2) :=
  c5_error_keeps_prefix_blocks [(1, demixPerIdMetadata)] false nullOracle
    [demixFirstRecordMd, demixGapRecordMd] ⟨[]⟩ []
    (RunError.status StatusCode.invalidArgument) rfl

theorem except_ok_bind {α β γ : Type} (a : α) (f : α → Except γ β) :
    (Except.ok a >>= f : Except γ β) = f a := rfl

theorem getD_replicate_zero (i : Nat) :
    (List.replicate 12 (0 : Nat)).getD i 0 = 0 := by
  rw [List.getD_eq_getElem?_getD, List.getElem?_replicate]
  split <;> rfl

theorem buildUserReconGains_fold_testBit (pairs : List (Nat × Nat)) :
    ∀ (acc result : List Nat × Nat),
      (∀ i, acc.1.getD i 0 ≠ 0 → acc.2.testBit i = true) →
      pairs.foldlM buildUserReconGainsStep acc = Except.ok result →
      ∀ i, result.1.getD i 0 ≠ 0 → result.2.testBit i = true := by
  induction pairs with
  | nil =>
    intro acc result hacc hfold
    rw [List.foldlM_nil] at hfold
    have heq : acc = result := Except.ok.inj hfold
    subst heq
    exact hacc
  | cons hd tl ih =>
    intro acc result hacc hfold
    rw [List.foldlM_cons] at hfold
    unfold buildUserReconGainsStep at hfold
    by_cases h12 : hd.1 < 12
    · rw [if_pos h12, except_ok_bind] at hfold
      refine ih _ result ?_ hfold
      intro i hi
      by_cases hieq : i = hd.1
      · subst hieq
        simp [Nat.testBit_or, Nat.one_shiftLeft, Nat.testBit_two_pow_self]
      · have hget : (acc.1.set hd.1 (hd.2 % 256)).getD i 0 = acc.1.getD i 0 := by
          rw [List.getD_eq_getElem?_getD, List.getD_eq_getElem?_getD,
            List.getElem?_set_ne (fun h => hieq h.symm)]
        rw [hget] at hi
        simp [Nat.testBit_or, hacc i hi]
    · rw [if_neg h12] at hfold
      exact Except.noConfusion hfold

theorem reconGainLayerLoop_sound (ov : Bool) (flags : List Bool)
    (chans : List ChannelNumbers) (userLayers : List (List (Nat × Nat)))
    (oracle : ReconGainOracle) :
    ∀ (remaining layerIndex : Nat) (accumulated : ChannelNumbers)
      (elems : List ReconGainElement),
      reconGainLayerLoop ov flags chans userLayers oracle layerIndex remaining
          accumulated = Except.ok elems →
      ∀ e ∈ elems, ∀ i, e.reconGain.getD i 0 ≠ 0 →
        e.reconGainFlag.testBit i = true := by
  intro remaining
  induction remaining with
  | zero =>
    intro layerIndex accumulated elems hok
    have heq : ([] : List ReconGainElement) = elems := Except.ok.inj hok
    subst heq
    intro e he
    exact absurd he (List.not_mem_nil e)
  | succ remaining ih =>
    intro layerIndex accumulated elems hok
    simp only [reconGainLayerLoop] at hok
    cases hu : userLayers[layerIndex]? with
    | none =>
      simp only [hu] at hok
      exact Except.noConfusion hok
    | some userPairs =>
      simp only [hu] at hok
      cases hb : buildUserReconGains userPairs with
      | error e1 =>
        simp only [hb] at hok
        exact Except.noConfusion hok
      | ok gf =>
        obtain ⟨g, fl⟩ := gf
        simp only [hb] at hok
        have helem : ∀ i,
            ({ reconGainFlag := fl, reconGain := g } :
                ReconGainElement).reconGain.getD i 0 ≠ 0 →
              ({ reconGainFlag := fl, reconGain := g } :
                ReconGainElement).reconGainFlag.testBit i = true := by
          intro i hi
          exact buildUserReconGains_fold_testBit userPairs
            (List.replicate 12 0, 0) (g, fl)
            (fun j hj => absurd (getD_replicate_zero j) hj) hb i hi
        cases ov with
        | true =>
          rw [if_pos rfl] at hok
          cases hrec : reconGainLayerLoop true flags chans userLayers oracle
              (layerIndex + 1) remaining accumulated with
          | error e1 =>
            simp only [hrec] at hok
            exact Except.noConfusion hok
          | ok rest =>
            simp only [hrec] at hok
            have heq := Except.ok.inj hok
            subst heq
            intro e he
            rcases List.mem_cons.mp he with rfl | he2
            · exact helem
            · exact ih (layerIndex + 1) accumulated rest hrec e he2
        | false =>
          rw [if_neg Bool.false_ne_true] at hok
          cases hc : chans[layerIndex]? with
          | none =>
            simp only [hc] at hok
            exact Except.noConfusion hok
          | some layerChannels =>
            simp only [hc] at hok
            cases hcr : computeReconGainsImpl layerIndex layerChannels
                accumulated oracle flags with
            | error e1 =>
              simp only [hcr] at hok
              exact Except.noConfusion hok
            | ok computed =>
              simp only [hcr] at hok
              cases hf : flags[layerIndex]? with
              | none =>
                simp only [hf] at hok
                exact Except.noConfusion hok
              | some present =>
                simp only [hf] at hok
                cases present with
                | false =>
                  rw [if_pos (show (!false) = true from rfl)] at hok
                  cases hrec : reconGainLayerLoop false flags chans userLayers
                      oracle (layerIndex + 1) remaining layerChannels with
                  | error e1 =>
                    simp only [hrec] at hok
                    exact Except.noConfusion hok
                  | ok rest =>
                    simp only [hrec] at hok
                    have heq := Except.ok.inj hok
                    subst heq
                    intro e he
                    rcases List.mem_cons.mp he with rfl | he2
                    · exact helem
                    · exact ih (layerIndex + 1) layerChannels rest hrec e he2
                | true =>
                  rw [if_neg (by simp)] at hok
                  by_cases hneq : computed.flag ≠ fl
                  · rw [if_pos hneq] at hok
                    exact absurd hok (by simp)
                  · rw [if_neg hneq] at hok
                    by_cases hany : ((List.range 12).any
                        (fun i => decide (g.getD i 0 ≠ computed.gains.getD i 0))) = true
                    · rw [if_pos hany] at hok
                      exact absurd hok (by simp)
                    · rw [if_neg hany] at hok
                      cases hrec : reconGainLayerLoop false flags chans
                          userLayers oracle (layerIndex + 1) remaining
                          layerChannels with
                      | error e1 =>
                        simp only [hrec] at hok
                        exact Except.noConfusion hok
                      | ok rest =>
                        simp only [hrec] at hok
                        have heq := Except.ok.inj hok
                        subst heq
                        intro e he
                        rcases List.mem_cons.mp he with rfl | he2
                        · exact helem
                        · exact ih (layerIndex + 1) layerChannels rest hrec e he2

/-- C7 counterexample: in the user-override path a user pair (bit position 3,
gain 0) produces a recon-gain element whose flag has bit 3 set while entry 3
of the size-12 array is zero, so a set bit does not imply a nonzero entry. -/
theorem c7_counterexample :
    generateReconGainSubblock true 1 [true] [⟨2, 0, 0⟩] [[(3, 0)]]
        oracleZero = Except.ok [⟨8, List.replicate 12 0⟩] ∧
      Nat.testBit 8 3 = true ∧ (List.replicate 12 0).getD 3 0 = 0 :=
  ⟨rfl, by decide, rfl⟩

/-- C7 amended: for every recon-gain element produced by
`GenerateReconGainSubblock` (user-supplied and computed paths alike), a
nonzero entry at position i of the size-12 array implies that bit i of
`recon_gain_flag` is set; the converse fails (a user- or computed gain of 0
keeps the bit set with a zero entry). -/
theorem c7_nonzero_entry_implies_bit_set (ov : Bool) (numLayers : Nat)
    (flags : List Bool) (chans : List ChannelNumbers)
    (userLayers : List (List (Nat × Nat))) (oracle : ReconGainOracle)
    (elems : List ReconGainElement)
    (hok : generateReconGainSubblock ov numLayers flags chans userLayers
        oracle = Except.ok elems) :
    ∀ e ∈ elems, ∀ i, e.reconGain.getD i 0 ≠ 0 →
      e.reconGainFlag.testBit i = true := by
  unfold generateReconGainSubblock at hok
  by_cases hg : reconGainLayerCountMismatch numLayers userLayers = true
  · rw [if_pos hg] at hok
    exact absurd hok (by simp)
  · rw [if_neg hg] at hok
    exact reconGainLayerLoop_sound ov flags chans userLayers oracle numLayers
      0 ⟨0, 0, 0⟩ elems hok

/-- C7 witness: the amended statement evaluated at a single-layer override
call with user pair (3, 5). -/
theorem c7_witness : Nat.testBit 8 3 = true :=
  c7_nonzero_entry_implies_bit_set true 1 [true] [⟨2, 0, 0⟩] [[(3, 5)]]
    oracleZero [⟨8, (List.replicate 12 0).set 3 5⟩] rfl
    ⟨8, (List.replicate 12 0).set 3 5⟩ (List.mem_cons_self _ _) 3 (by decide)

theorem finalizeFrames_nil (p next : Nat) :
    finalizeFrames p [] next = some (Except.ok []) := by
  rw [finalizeFrames.eq_def]
  rw [if_pos rfl]

theorem finalizeFrames_gap (p : Nat) (frames : List (Nat × FlacFrame))
    (next : Nat) (hne : frames ≠ []) (hlk : lookupFrame next frames = none) :
    finalizeFrames p frames next = some (Except.error StatusCode.unknown) := by
  rw [finalizeFrames.eq_def]
  rw [if_neg hne, dif_neg (by simp [hlk])]

theorem finalizeFrames_incomplete (p : Nat) (frames : List (Nat × FlacFrame))
    (next : Nat) (f : FlacFrame) (hlk : lookupFrame next frames = some f)
    (hns : f.numSamples ≠ p) : finalizeFrames p frames next = none := by
  have hne : frames ≠ [] := by
    intro h
    rw [h] at hlk
    exact Option.noConfusion hlk
  have hsome : (lookupFrame next frames).isSome = true := by simp [hlk]
  have hget : (lookupFrame next frames).get hsome = f := by
    have h2 := Option.some_get hsome
    exact Option.some.inj (h2.trans hlk)
  rw [finalizeFrames.eq_def]
  rw [if_neg hne, dif_pos hsome]
  dsimp only
  rw [hget, if_neg hns]

theorem finalizeFrames_step (p : Nat) (frames : List (Nat × FlacFrame))
    (next : Nat) (f : FlacFrame) (hlk : lookupFrame next frames = some f)
    (hns : f.numSamples = p) :
    finalizeFrames p frames next =
      (finalizeFrames p (eraseFrame next frames) (next + 1)).map
        (fun r => r.map (fun rest => (next, f) :: rest)) := by
  have hne : frames ≠ [] := by
    intro h
    rw [h] at hlk
    exact Option.noConfusion hlk
  have hsome : (lookupFrame next frames).isSome = true := by simp [hlk]
  have hget : (lookupFrame next frames).get hsome = f := by
    have h2 := Option.some_get hsome
    exact Option.some.inj (h2.trans hlk)
  rw [finalizeFrames.eq_def]
  rw [if_neg hne, dif_pos hsome]
  dsimp only
  rw [hget, if_pos hns]

theorem lookupFrame_none_iff (next : Nat) (frames : List (Nat × FlacFrame)) :
    lookupFrame next frames = none ↔ next ∉ frames.map Prod.fst := by
  unfold lookupFrame
  rw [Option.map_eq_none']
  rw [List.find?_eq_none]
  constructor
  · intro h hmem
    obtain ⟨kv, hkv, hfst⟩ := List.mem_map.mp hmem
    exact absurd (beq_iff_eq.mpr hfst) (by simpa using h kv hkv)
  · intro h kv hkv hbeq
    exact h (List.mem_map.mpr ⟨kv, hkv, beq_iff_eq.mp hbeq⟩)

theorem lookupFrame_isSome_of_mem (next : Nat)
    (frames : List (Nat × FlacFrame)) (h : next ∈ frames.map Prod.fst) :
    ∃ f, lookupFrame next frames = some f := by
  cases hlk : lookupFrame next frames with
  | some f => exact ⟨f, rfl⟩
  | none => exact absurd h ((lookupFrame_none_iff next frames).mp hlk)

theorem lookupFrame_decomp (next : Nat) (frames : List (Nat × FlacFrame))
    (f : FlacFrame) (hlk : lookupFrame next frames = some f) :
    ∃ l1 l2, (∀ kv ∈ l1, kv.1 ≠ next) ∧ frames = l1 ++ (next, f) :: l2 ∧
      eraseFrame next frames = l1 ++ l2 := by
  induction frames with
  | nil => exact Option.noConfusion hlk
  | cons hd tl ih =>
    by_cases h : hd.1 = next
    · have hpred : (hd.1 == next) = true := beq_iff_eq.mpr h
      have hfind : lookupFrame next (hd :: tl) = some hd.2 := by
        unfold lookupFrame
        rw [List.find?_cons_of_pos tl hpred]
        rfl
      have hf : f = hd.2 := Option.some.inj (hlk.symm.trans hfind)
      have hhd : hd = (next, f) := by
        obtain ⟨k, v⟩ := hd
        simp only at h hf
        rw [h, hf]
      refine ⟨[], tl, by simp, by simp [hhd], ?_⟩
      unfold eraseFrame
      simp [List.eraseP_cons, hpred]
    · have hpred : (hd.1 == next) = false := by
        simp [h]
      have hlk2 : lookupFrame next tl = some f := by
        unfold lookupFrame at hlk ⊢
        rwa [List.find?_cons_of_neg tl (by simp [hpred])] at hlk
      obtain ⟨l1, l2, hno, heq, her⟩ := ih hlk2
      refine ⟨hd :: l1, l2, ?_, by simp [heq], ?_⟩
      · intro kv hkv
        rcases List.mem_cons.mp hkv with rfl | hkv2
        · exact h
        · exact hno kv hkv2
      · unfold eraseFrame at her ⊢
        simp [List.eraseP_cons, hpred, her]

theorem finalizeFrames_ok_sound (p : Nat) :
    ∀ (n : Nat) (frames : List (Nat × FlacFrame)) (next : Nat),
      frames.length ≤ n → (frames.map Prod.fst).Nodup →
      ∀ out, finalizeFrames p frames next = some (Except.ok out) →
        framesAllComplete p frames ∧
          out.map Prod.fst = List.range' next frames.length ∧
          frames.Perm out := by
  intro n
  induction n with
  | zero =>
    intro frames next hlen hnd out hok
    have hnil : frames = [] := List.length_eq_zero.mp (Nat.le_zero.mp hlen)
    subst hnil
    rw [finalizeFrames_nil] at hok
    have heq : ([] : List (Nat × FlacFrame)) = out :=
      Except.ok.inj (Option.some.inj hok)
    subst heq
    exact ⟨fun kv hkv => absurd hkv (List.not_mem_nil kv), by simp, by simp⟩
  | succ n ih =>
    intro frames next hlen hnd out hok
    by_cases hnil : frames = []
    · subst hnil
      rw [finalizeFrames_nil] at hok
      have heq : ([] : List (Nat × FlacFrame)) = out :=
        Except.ok.inj (Option.some.inj hok)
      subst heq
      exact ⟨fun kv hkv => absurd hkv (List.not_mem_nil kv), by simp, by simp⟩
    · cases hlk : lookupFrame next frames with
      | none =>
        rw [finalizeFrames_gap p frames next hnil hlk] at hok
        exact Except.noConfusion (Option.some.inj hok)
      | some f =>
        by_cases hns : f.numSamples = p
        · rw [finalizeFrames_step p frames next f hlk hns] at hok
          rw [Option.map_eq_some'] at hok
          obtain ⟨r, hrec, hmap⟩ := hok
          cases r with
          | error e1 => exact Except.noConfusion hmap
          | ok rest =>
            have hout : (next, f) :: rest = out := Except.ok.inj hmap
            obtain ⟨l1, l2, hno, heq, her⟩ := lookupFrame_decomp next frames f hlk
            have hlener : (eraseFrame next frames).length ≤ n := by
              rw [her]
              rw [heq] at hlen
              simp only [List.length_append, List.length_cons] at hlen ⊢
              omega
            have hnder : ((eraseFrame next frames).map Prod.fst).Nodup := by
              rw [her]
              rw [heq] at hnd
              simp only [List.map_append, List.map_cons] at hnd ⊢
              exact hnd.sublist
                (List.Sublist.append_left
                  (List.sublist_cons_self next (l2.map Prod.fst))
                  (l1.map Prod.fst))
            obtain ⟨hcompl, hkeys, hperm⟩ :=
              ih (eraseFrame next frames) (next + 1) hlener hnder rest hrec
            have hlensucc : frames.length = (eraseFrame next frames).length + 1 := by
              rw [her, heq]
              simp only [List.length_append, List.length_cons]
              omega
            refine ⟨?_, ?_, ?_⟩
            · intro kv hkv
              rw [heq] at hkv
              rcases List.mem_append.mp hkv with hkv1 | hkv2
              · exact hcompl kv (by rw [her]; exact List.mem_append.mpr (Or.inl hkv1))
              · rcases List.mem_cons.mp hkv2 with rfl | hkv3
                · exact hns
                · exact hcompl kv (by rw [her]; exact List.mem_append.mpr (Or.inr hkv3))
            · rw [← hout]
              rw [hlensucc, List.range'_succ]
              simp only [List.map_cons]
              rw [hkeys]
            · rw [← hout]
              have h1 : frames.Perm ((next, f) :: eraseFrame next frames) := by
                rw [her, heq]
                exact List.perm_middle
              exact h1.trans (hperm.cons (next, f))
        · rw [finalizeFrames_incomplete p frames next f hlk hns] at hok
          exact Option.noConfusion hok

theorem finalizeFrames_ok_complete (p : Nat) :
    ∀ (n : Nat) (frames : List (Nat × FlacFrame)) (next : Nat),
      frames.length ≤ n → (frames.map Prod.fst).Nodup →
      framesAllComplete p frames → framesContiguousFrom next frames →
      ∃ out, finalizeFrames p frames next = some (Except.ok out) := by
  intro n
  induction n with
  | zero =>
    intro frames next hlen hnd hc hg
    have hnil : frames = [] := List.length_eq_zero.mp (Nat.le_zero.mp hlen)
    subst hnil
    exact ⟨[], finalizeFrames_nil p next⟩
  | succ n ih =>
    intro frames next hlen hnd hc hg
    by_cases hnil : frames = []
    · subst hnil
      exact ⟨[], finalizeFrames_nil p next⟩
    · have hpos : 0 < frames.length := List.length_pos.mpr hnil
      have hmemnext : next ∈ frames.map Prod.fst := by
        unfold framesContiguousFrom at hg
        refine hg.mem_iff.mpr ?_
        rw [List.mem_range'_1]
        omega
      obtain ⟨f, hlk⟩ := lookupFrame_isSome_of_mem next frames hmemnext
      obtain ⟨l1, l2, hno, heq, her⟩ := lookupFrame_decomp next frames f hlk
      have hmem : (next, f) ∈ frames := by
        rw [heq]
        exact List.mem_append.mpr (Or.inr (List.mem_cons_self _ _))
      have hns : f.numSamples = p := hc (next, f) hmem
      have hlener : (eraseFrame next frames).length ≤ n := by
        rw [her]
        rw [heq] at hlen
        simp only [List.length_append, List.length_cons] at hlen ⊢
        omega
      have hnder : ((eraseFrame next frames).map Prod.fst).Nodup := by
        rw [her]
        rw [heq] at hnd
        simp only [List.map_append, List.map_cons] at hnd ⊢
        exact hnd.sublist
          (List.Sublist.append_left
            (List.sublist_cons_self next (l2.map Prod.fst))
            (l1.map Prod.fst))
      have hcer : framesAllComplete p (eraseFrame next frames) := by
        intro kv hkv
        rw [her] at hkv
        refine hc kv ?_
        rw [heq]
        rcases List.mem_append.mp hkv with h1 | h2
        · exact List.mem_append.mpr (Or.inl h1)
        · exact List.mem_append.mpr (Or.inr (List.mem_cons_of_mem _ h2))
      have hlensucc : frames.length = (eraseFrame next frames).length + 1 := by
        rw [her, heq]
        simp only [List.length_append, List.length_cons]
        omega
      have hger : framesContiguousFrom (next + 1) (eraseFrame next frames) := by
        unfold framesContiguousFrom at hg ⊢
        have h1 : (frames.map Prod.fst).Perm
            (next :: (eraseFrame next frames).map Prod.fst) := by
          rw [her, heq]
          simp only [List.map_append, List.map_cons]
          exact List.perm_middle
        have h2 := (h1.symm.trans hg)
        rw [hlensucc, List.range'_succ] at h2
        exact (List.perm_cons next).mp h2
      obtain ⟨rest, hrec⟩ :=
        ih (eraseFrame next frames) (next + 1) hlener hnder hcer hger
      refine ⟨(next, f) :: rest, ?_⟩
      rw [finalizeFrames_step p frames next f hlk hns, hrec]
      rfl

/-- C10: in the single-threaded model, `FlacEncoder::FinalizeFrames`
terminates normally exactly when every queued frame has accumulated
`num_samples_per_frame_` samples and the frame indices are contiguous from
the next expected index; on success all frames are moved out in ascending
index order (a permutation of the map, leaving it empty); a gap at the next
expected index returns `Unknown`; an incomplete frame at the next expected
index makes the 50ms-sleep loop retry forever (divergence, `none`). -/
theorem c10_finalize_frames_terminates (p : Nat)
    (frames : List (Nat × FlacFrame)) (next : Nat)
    (hnd : (frames.map Prod.fst).Nodup) :
    ((∃ out, finalizeFrames p frames next = some (Except.ok out)) ↔
      (framesAllComplete p frames ∧ framesContiguousFrom next frames)) ∧
    (∀ out, finalizeFrames p frames next = some (Except.ok out) →
      out.map Prod.fst = List.range' next frames.length ∧ frames.Perm out) ∧
    (frames ≠ [] → lookupFrame next frames = none →
      finalizeFrames p frames next = some (Except.error StatusCode.unknown)) ∧
    (∀ f, lookupFrame next frames = some f → f.numSamples ≠ p →
      finalizeFrames p frames next = none) := by
  refine ⟨⟨?_, ?_⟩, ?_, ?_, ?_⟩
  · rintro ⟨out, hok⟩
    obtain ⟨hc, hkeys, hperm⟩ :=
      finalizeFrames_ok_sound p frames.length frames next le_rfl hnd out hok
    refine ⟨hc, ?_⟩
    unfold framesContiguousFrom
    rw [← hkeys]
    exact hperm.map Prod.fst
  · rintro ⟨hc, hg⟩
    exact finalizeFrames_ok_complete p frames.length frames next le_rfl hnd hc hg
  · intro out hok
    obtain ⟨hc, hkeys, hperm⟩ :=
      finalizeFrames_ok_sound p frames.length frames next le_rfl hnd out hok
    exact ⟨hkeys, hperm⟩
  · exact fun hne hlk => finalizeFrames_gap p frames next hne hlk
  · exact fun f hlk hns => finalizeFrames_incomplete p frames next f hlk hns

/-- C10 witness: the termination statement evaluated at a complete contiguous
two-frame map. -/
theorem c10_witness :
    ∃ out, finalizeFrames 4 [(0, ⟨4, 100⟩), (1, ⟨4, 101⟩)] 0 =
      some (Except.ok out) :=
  (c10_finalize_frames_terminates 4 [(0, ⟨4, 100⟩), (1, ⟨4, 101⟩)] 0
      (by decide)).1.mpr
    ⟨by unfold framesAllComplete; decide,
      by unfold framesContiguousFrom; exact List.Perm.refl _⟩

end IamfTools
